import Mathlib

/-!
# Address book (`basicRest/contacts`) and its HTTP front end (`main.go`)

A shallow embedding of the in-memory contact store and of the request
handlers built on it, followed by the properties established about them.

Conventions of the embedding.

* A Go `map[string]Contacts` is an association list with pairwise distinct
  keys (`AList`).  The order of its entries stands for the order in which a
  `range` loop happens to enumerate the map; since the theorems quantify
  over every association list, they hold for every enumeration order.
* Every method of `*AddressBook` takes the book and returns its result
  paired with the book it leaves behind.  The embedded `sync.Mutex` is not
  represented: the model is sequential.
* A Go `error` is `Except String _` (or `Option String` when there is no
  other result); the string is the text of `err.Error()`.
* Logging (`log.Printf`, `fmt.Println`) has no effect on results and is
  omitted.
-/

namespace BasicRest

/-! ## Values of the Go runtime the store works with -/

deriving instance DecidableEq for Except

/-- A `time.Time`, represented by what `Date()` reports for it (calendar
year, month and day in the time's own location), by the time of day, in
nanoseconds since midnight, and by the offset of its zone, in seconds east
of UTC, as `Zone()` reports it. -/
structure Time where
  year : Int
  month : Int
  day : Int
  nanos : Nat
  offset : Int
  deriving DecidableEq, Repr

/-- The zero `time.Time`: January 1, year 1, 00:00:00 UTC. -/
def Time.zero : Time := ⟨1, 1, 1, 0, 0⟩

/-- The method `Time.Date`: year, month and day of the time. -/
def Time.Date (t : Time) : Int × Int × Int := (t.year, t.month, t.day)

/-- A Go slice value: the nil slice, or a non-nil slice with its elements.
The two differ for `encoding/json` even when both have length zero. -/
inductive Slice (α : Type) where
  | null : Slice α
  | ofList (elems : List α) : Slice α
  deriving DecidableEq, Repr

/-- The elements of a slice, in order. -/
def Slice.toList {α : Type} : Slice α → List α
  | .null => []
  | .ofList xs => xs

/-- The builtin `len` on a slice. -/
def Slice.len {α : Type} (s : Slice α) : Nat := s.toList.length

/-- The builtin `append(s, x)`: the result is never nil. -/
def Slice.append {α : Type} (s : Slice α) (x : α) : Slice α :=
  .ofList (s.toList ++ [x])

/-- The builtin `make([]T, n)`: a non-nil slice of `n` zero values. -/
def Slice.make {α : Type} (zero : α) (n : Nat) : Slice α :=
  .ofList (List.replicate n zero)

/-! ## `contacts.go` -/

/-- The struct `Contacts`. -/
structure Contacts where
  Name : String
  Email : String
  Address : String
  Mobile : String
  CreatedAt : Time
  deriving DecidableEq, Repr

/-- The zero value `Contacts{}`. -/
def Contacts.zero : Contacts := ⟨"", "", "", "", Time.zero⟩

/-- The struct `AddressBook`: the map from email to contact. -/
structure AddressBook where
  contacts : AList (fun _ : String => Contacts)

/-- The builtin `len` on the map. -/
def AddressBook.len (ab : AddressBook) : Nat := ab.contacts.entries.length

/-- The function `New`: a book with an empty map. -/
def New : AddressBook := ⟨∅⟩

/-- The method `CreateContact`: builds the record from the five arguments,
stores it at key `email` and returns `email`. -/
def CreateContact (ab : AddressBook) (name email address mobile : String)
    (createdAt : Time) : String × AddressBook :=
  let contacts : Contacts :=
    { Name := name, Email := email, Address := address, Mobile := mobile,
      CreatedAt := createdAt }
  (email, ⟨ab.contacts.insert email contacts⟩)

/-- The method `GetContact`: the record at `email`, or an error. -/
def GetContact (ab : AddressBook) (email : String) :
    Except String Contacts × AddressBook :=
  match ab.contacts.lookup email with
  | some c => (.ok c, ab)
  | none => (.error ("Contact with email=" ++ email ++ " not found"), ab)

/-- The method `DeleteContact`: removes the record at `email`, or reports an
error (`some msg`) when there is none; `none` is the nil error. -/
def DeleteContact (ab : AddressBook) (email : String) :
    Option String × AddressBook :=
  match ab.contacts.lookup email with
  | none => (some ("Contact with Email=" ++ email ++ " not found"), ab)
  | some _ => (none, ⟨ab.contacts.erase email⟩)

/-- The method `DeleteAllContacts`: replaces the map by a fresh empty one
and returns the nil error. -/
def DeleteAllContacts (_ab : AddressBook) : Option String × AddressBook :=
  (none, ⟨∅⟩)

/-- The method `GetAllContacts`: starts from `make([]Contacts, len(map))`
and appends every record of the map to it. -/
def GetAllContacts (ab : AddressBook) : Slice Contacts × AddressBook :=
  let contacts := Slice.make Contacts.zero ab.len
  (ab.contacts.entries.foldl (fun acc e => acc.append e.2) contacts, ab)

/-- The method `GetContactByCreatedDate`: starts from the nil slice and
appends every record whose `CreatedAt.Date()` is `(year, month, day)`. -/
def GetContactByCreatedDate (ab : AddressBook) (year month day : Int) :
    Slice Contacts × AddressBook :=
  let contacts : Slice Contacts := .null
  (ab.contacts.entries.foldl
    (fun acc e =>
      let (y, m, d) := e.2.CreatedAt.Date
      if y = year ∧ m = month ∧ d = day then acc.append e.2 else acc)
    contacts, ab)

/-- One call of a method of the store, with its arguments. -/
inductive Op where
  | create (name email address mobile : String) (createdAt : Time)
  | get (email : String)
  | delete (email : String)
  | deleteAll
  | getAll
  | byDate (year month day : Int)
  deriving DecidableEq, Repr

/-- The book a call leaves behind. -/
def Op.run (ab : AddressBook) : Op → AddressBook
  | .create name email address mobile createdAt =>
      (CreateContact ab name email address mobile createdAt).2
  | .get email => (GetContact ab email).2
  | .delete email => (DeleteContact ab email).2
  | .deleteAll => (DeleteAllContacts ab).2
  | .getAll => (GetAllContacts ab).2
  | .byDate year month day => (GetContactByCreatedDate ab year month day).2

/-- The book left behind by a sequence of calls, made one after the other. -/
def runOps (ab : AddressBook) (ops : List Op) : AddressBook :=
  ops.foldl Op.run ab

/-! ## Library functions used by `main.go` -/

/-- The function `strings.Trim`: `s` without its leading and trailing
characters that occur in `cutset`. -/
def Trim (s cutset : String) : String :=
  ⟨((s.data.dropWhile (fun c => cutset.data.contains c)).reverse.dropWhile
      (fun c => cutset.data.contains c)).reverse⟩

/-- Splitting of a character list at every occurrence of `sep`: one more
piece than there are separators, empty pieces included. -/
def splitChars (sep : Char) : List Char → List (List Char)
  | [] => [[]]
  | c :: cs =>
    if c = sep then [] :: splitChars sep cs
    else
      match splitChars sep cs with
      | [] => [[c]]
      | p :: ps => (c :: p) :: ps

/-- The function `strings.Split` for a separator of one character. -/
def Split (s : String) (sep : Char) : List String :=
  (splitChars sep s.data).map String.mk

/-- The parts of a request path as both handlers compute them: the path
trimmed of its leading and trailing slashes, split at every slash. -/
def pathPartsOf (path : String) : List String :=
  Split (Trim path "/") '/'

/-- The function `strconv.Atoi` on a 64-bit platform: an optional sign
followed by one or more decimal digits, denoting a value that fits `int`.
The result is `none` when Go returns a non-nil error; which error it is
(`ErrSyntax` or `ErrRange`) is not represented, no caller looks at it. -/
def Atoi (s : String) : Option Int :=
  let (neg, digits) :=
    match s.data with
    | '-' :: r => (true, r)
    | '+' :: r => (false, r)
    | r => (false, r)
  if digits = [] ∨ ¬ digits.all Char.isDigit then none
  else
    let n : Nat := digits.foldl (fun acc c => acc * 10 + (c.toNat - 48)) 0
    let v : Int := if neg then -(n : Int) else (n : Int)
    if v < -(2 ^ 63) ∨ 2 ^ 63 - 1 < v then none
    else some v

/-- A value of a struct field as `encoding/json` sees it: a string or a
time. -/
inductive JSONField where
  | str (s : String)
  | time (t : Time)
  deriving DecidableEq, Repr

/-- A JSON document produced by the handlers: `null`, one object (its
members in order) or an array of objects.  The bytes on the wire are the
serialisation of this document. -/
inductive JSON where
  | null
  | object (members : List (String × JSONField))
  | array (items : List (List (String × JSONField)))
  deriving DecidableEq, Repr

/-- The method `Time.MarshalJSON` (Go 1.20 and later), reduced to whether it
fails: it refuses a year that is not written with exactly four digits, and
otherwise a zone offset whose hour part is 24 or more; `none` is the nil
error. -/
def Time.MarshalJSON (t : Time) : Option String :=
  if t.year < 0 ∨ 10000 ≤ t.year then
    some "Time.MarshalJSON: year outside of range [0,9999]"
  else if t.offset ≤ -86400 ∨ 86400 ≤ t.offset then
    some "Time.MarshalJSON: timezone hour outside of range [0,23]"
  else none

/-- The members `encoding/json` writes for a `Contacts`, under the names of
its struct tags; the four strings always encode, the time encodes when its
`MarshalJSON` does not fail. -/
def marshalContacts (c : Contacts) : Except String (List (String × JSONField)) :=
  match c.CreatedAt.MarshalJSON with
  | some err => .error ("json: error calling MarshalJSON for type time.Time: " ++ err)
  | none =>
    .ok [("name", .str c.Name), ("email", .str c.Email), ("address", .str c.Address),
         ("mobile", .str c.Mobile), ("createdAt", .time c.CreatedAt)]

/-- The function `json.Marshal` on one `Contacts`. -/
def jsonMarshalContact (c : Contacts) : Except String JSON :=
  (marshalContacts c).map JSON.object

/-- The elements of a slice, encoded in order; the first failure ends the
encoding. -/
def marshalAll : List Contacts → Except String (List (List (String × JSONField)))
  | [] => .ok []
  | c :: cs =>
    match marshalContacts c with
    | .error err => .error err
    | .ok m =>
      match marshalAll cs with
      | .error err => .error err
      | .ok ms => .ok (m :: ms)

/-- The function `json.Marshal` on a `[]Contacts`: a nil slice encodes as
`null`, any other slice as the array of its elements. -/
def jsonMarshalSlice : Slice Contacts → Except String JSON
  | .null => .ok .null
  | .ofList xs => (marshalAll xs).map JSON.array

/-! ## `main.go` -/

/-- What a handler reads of a `*http.Request`: the method, `URL.Path`, the
`Content-Type` header (empty when absent) and the body. -/
structure Request where
  Method : String
  Path : String
  ContentType : String
  Body : String
  deriving DecidableEq, Repr

/-- The body of a response: text, or a JSON document. -/
inductive Body where
  | text (s : String)
  | json (v : JSON)
  deriving DecidableEq, Repr

/-- What a handler leaves in the `http.ResponseWriter`: status code, the
headers it set, and the body. -/
structure Response where
  status : Nat
  headers : List (String × String)
  body : Body
  deriving DecidableEq, Repr

/-- The function `http.Error`: a plain-text response with the given code
whose body is the message followed by a newline. -/
def httpError (msg : String) (code : Nat) : Response :=
  { status := code
    headers := [("Content-Type", "text/plain; charset=utf-8"),
                ("X-Content-Type-Options", "nosniff")]
    body := .text (msg ++ "\n") }

/-- The two closing statements of the reading handlers: the header
`Content-Type: application/json` and `w.Write(js)`, with the implicit
status 200. -/
def writeJSON (js : JSON) : Response :=
  { status := 200, headers := [("Content-Type", "application/json")], body := .json js }

/-- A handler that returns without writing: status 200, no body. -/
def noContent : Response :=
  { status := 200, headers := [], body := .text "" }

/-- The method `getContactHandler`. -/
def getContactHandler (store : AddressBook) (_req : Request) (emailid : String) :
    Response × AddressBook :=
  match GetContact store emailid with
  | (.error err, store) => (httpError err 404, store)
  | (.ok contact, store) =>
    match jsonMarshalContact contact with
    | .error err => (httpError err 500, store)
    | .ok js => (writeJSON js, store)

/-- The method `getAllContactsHandler`. -/
def getAllContactsHandler (store : AddressBook) (_req : Request) :
    Response × AddressBook :=
  match GetAllContacts store with
  | (allContacts, store) =>
    match jsonMarshalSlice allContacts with
    | .error err => (httpError err 500, store)
    | .ok js => (writeJSON js, store)

/-- The method `deleteContactHandler`. -/
def deleteContactHandler (store : AddressBook) (_req : Request) (emailid : String) :
    Response × AddressBook :=
  match DeleteContact store emailid with
  | (some err, store) => (httpError err 404, store)
  | (none, store) => (noContent, store)

/-- The method `deleteAllContactsHandler`. -/
def deleteAllContactsHandler (store : AddressBook) (_req : Request) :
    Response × AddressBook :=
  (noContent, (DeleteAllContacts store).2)

/-- The method `createdAtHandler`.  The indices 1, 2 and 3 are read only
once the path is known to have four parts. -/
def createdAtHandler (store : AddressBook) (req : Request) : Response × AddressBook :=
  if req.Method ≠ "GET" then
    (httpError ("expect method GET /due/<date>, got " ++ req.Method) 405, store)
  else
    let path := Trim req.Path "/"
    let pathParts := Split path '/'
    let badRequestError : Response :=
      httpError ("expect /due/<year>/<month>/<day>, got " ++ req.Path) 400
    if pathParts.length ≠ 4 then (badRequestError, store)
    else
      match Atoi (pathParts.getD 1 "") with
      | none => (badRequestError, store)
      | some year =>
        match Atoi (pathParts.getD 2 "") with
        | none => (badRequestError, store)
        | some month =>
          if month < 1 ∨ month > 12 then (badRequestError, store)
          else
            match Atoi (pathParts.getD 3 "") with
            | none => (badRequestError, store)
            | some day =>
              match GetContactByCreatedDate store year month day with
              | (contacts, store) =>
                match jsonMarshalSlice contacts with
                | .error err => (httpError err 500, store)
                | .ok js => (writeJSON js, store)

/-- The type `Request` declared inside `createContactHandler`: what the
body of a create request decodes to. -/
structure createContactHandler.Request where
  Name : String
  Email : String
  Address : String
  Mobile : String
  CreatedAt : Time
  deriving DecidableEq, Repr

/-- The type `Response` declared inside `createContactHandler`. -/
structure createContactHandler.Response where
  Email : String
  deriving DecidableEq, Repr

/-- The two library calls of `createContactHandler` that read text formats
defined outside this repository.  `ParseMediaType` is `mime.ParseMediaType`
reduced to what the handler keeps of it, the media type or the error text;
`Decode` is `Decode` of a `json.Decoder` on which `DisallowUnknownFields`
was called, into the local `Request`. -/
structure Library where
  ParseMediaType : String → Except String String
  Decode : String → Except String createContactHandler.Request

/-- The function `json.Marshal` on the local `Response`: an object with the
one member `email`; a string is always encodable. -/
def jsonMarshalResponse (r : createContactHandler.Response) : Except String JSON :=
  .ok (.object [("email", .str r.Email)])

/-- The method `createContactHandler`; `now` is what `time.Now()` returns
when the handler reads the clock. -/
def createContactHandler (lib : Library) (now : Time) (store : AddressBook)
    (req : Request) : Response × AddressBook :=
  let contentType := req.ContentType
  match lib.ParseMediaType contentType with
  | .error err => (httpError err 400, store)
  | .ok mediatype =>
    if mediatype ≠ "application/json" then
      (httpError "expect application/json Content-Type" 415, store)
    else
      match lib.Decode req.Body with
      | .error err => (httpError err 400, store)
      | .ok rs =>
        match CreateContact store rs.Name rs.Email rs.Address rs.Mobile now with
        | (email, store) =>
          match jsonMarshalResponse { Email := email } with
          | .error err => (httpError err 500, store)
          | .ok js => (writeJSON js, store)

/-- The method `contactHandler`.  Index 1 is read only once the path is
known to have at least two parts. -/
def contactHandler (lib : Library) (now : Time) (store : AddressBook)
    (req : Request) : Response × AddressBook :=
  if req.Path = "/contact/" then
    if req.Method = "POST" then createContactHandler lib now store req
    else if req.Method = "GET" then getAllContactsHandler store req
    else if req.Method = "DELETE" then deleteAllContactsHandler store req
    else
      (httpError ("expect method GET, DELETE or POST at /contact/, got " ++ req.Method) 405,
        store)
  else
    let path := Trim req.Path "/"
    let pathParts := Split path '/'
    if pathParts.length < 2 then
      (httpError "expect /contact/<emailid> in contact handler" 400, store)
    else
      let emailid := pathParts.getD 1 ""
      if req.Method = "DELETE" then deleteContactHandler store req emailid
      else if req.Method = "GET" then getContactHandler store req emailid
      else
        (httpError ("expect method GET or DELETE at /contact/<emailid>, got " ++ req.Method)
          405, store)

/-! ## The Go library behind `createContactHandler`

`mime.ParseMediaType` and the `json.Decoder` are followed here as far as
the handler depends on them.  What is left open is gathered in `Tables`:
the Unicode tables, the parsing of media type parameters, the scanning of
the body text into a JSON value, and the parsing of a time. -/

/-- A member value of a JSON object as the decoder sorts it: `null`, a
string (unescaped), or a value of another kind, named as Go's
`UnmarshalTypeError` names it (`number`, `bool`, `array`, `object`). -/
inductive BodyValue where
  | null
  | string (s : String)
  | other (kind : String)
  deriving DecidableEq, Repr

/-- A member of a JSON object: its unescaped name, its value, and the text
of the value as it stands in the body. -/
structure Member where
  key : String
  value : BodyValue
  raw : String
  deriving DecidableEq, Repr

/-- The first JSON value of a body: `null`, an object with its members in
order, or a value of another kind (`string`, `number`, `bool`, `array`). -/
inductive BodyDoc where
  | null
  | object (members : List Member)
  | other (kind : String)
  deriving DecidableEq, Repr

/-- What this development takes from the Go library without spelling it
out.  `ToLower`, `IsSpace` and `foldRune` are `unicode.ToLower`,
`unicode.IsSpace` and the fold of `encoding/json` on runes outside ASCII;
`mediaParams` is the parameter loop of `mime.ParseMediaType` on the
non-empty text from the first semicolon on, `none` when it finds no error;
`readValue` is the scanning step of `Decoder.Decode`, the first JSON value
of the body or the error; `UnmarshalTime` is `Time.UnmarshalJSON` on a value
text other than `null`; `Quote` is `strconv.Quote`. -/
structure Tables where
  ToLower : Char → Char
  IsSpace : Char → Bool
  foldRune : Char → Char
  mediaParams : String → Option String
  readValue : String → Except String BodyDoc
  UnmarshalTime : String → Except String Time
  Quote : String → String

/-- The function `strings.ToLower`, rune by rune: ASCII letters directly,
other runes by the table. -/
def ToLower (t : Tables) (s : List Char) : List Char :=
  s.map (fun c => if c.toNat < 128 then c.toLower else t.ToLower c)

/-- The white space of `strings.TrimSpace`: tab, line feed, vertical tab,
form feed, carriage return and space in ASCII, the table elsewhere. -/
def isSpace (t : Tables) (c : Char) : Bool :=
  if c.toNat < 128 then ['\t', '\n', '\x0b', '\x0c', '\r', ' '].contains c else t.IsSpace c

/-- The function `strings.TrimSpace`. -/
def TrimSpace (t : Tables) (s : List Char) : List Char :=
  ((s.dropWhile (isSpace t)).reverse.dropWhile (isSpace t)).reverse

/-- The function `isTSpecial` of package `mime`. -/
def isTSpecial (c : Char) : Bool :=
  ['(', ')', '<', '>', '@', ',', ';', ':', '\\', '\"', '/', '[', ']', '?', '='].contains c

/-- The function `isTokenChar` of package `mime`. -/
def isTokenChar (c : Char) : Bool :=
  0x20 < c.toNat && c.toNat < 0x7f && !isTSpecial c

/-- The function `consumeToken` of package `mime`: the longest prefix of
token characters, and what follows it. -/
def consumeToken (v : List Char) : List Char × List Char :=
  (v.takeWhile isTokenChar, v.dropWhile isTokenChar)

/-- The function `checkMediaTypeDisposition` of package `mime`; `none` is
the nil error. -/
def checkMediaTypeDisposition (s : List Char) : Option String :=
  match consumeToken s with
  | (typ, rest) =>
    if typ = [] then some "mime: no media type"
    else if rest = [] then none
    else
      match rest with
      | '/' :: rest =>
        match consumeToken rest with
        | (subtype, rest) =>
          if subtype = [] then some "mime: expected token after slash"
          else if rest ≠ [] then some "mime: unexpected content after media subtype"
          else none
      | _ => some "mime: expected slash after first token"

/-- The function `mime.ParseMediaType`, reduced to the media type and the
error: the text before the first semicolon, in lower case and trimmed, must
be a token or two tokens around a slash; the rest, when there is one, goes
through the parameter loop. -/
def ParseMediaType (t : Tables) (v : String) : Except String String :=
  let base := v.data.takeWhile (fun c => c ≠ ';')
  let mediatype := TrimSpace t (ToLower t base)
  match checkMediaTypeDisposition mediatype with
  | some err => .error err
  | none =>
    let rest := v.data.dropWhile (fun c => c ≠ ';')
    if rest = [] then .ok ⟨mediatype⟩
    else
      match t.mediaParams ⟨rest⟩ with
      | some err => .error err
      | none => .ok ⟨mediatype⟩

/-- The fields of the local type `Request`. -/
inductive Field where
  | Name
  | Email
  | Address
  | Mobile
  | CreatedAt
  deriving DecidableEq, Repr

/-- The name of a field in JSON, from its struct tag. -/
def Field.tag : Field → String
  | .Name => "name"
  | .Email => "email"
  | .Address => "address"
  | .Mobile => "mobile"
  | .CreatedAt => "createdAt"

/-- The function `foldName` of `encoding/json` (Go 1.21 and later): ASCII
letters in upper case, other runes folded by the table. -/
def foldName (t : Tables) (s : String) : List Char :=
  s.data.map (fun c => if c.toNat < 128 then c.toUpper else t.foldRune c)

/-- The field an object key is decoded into: the one with exactly that
name, else the one whose name is equal after folding; `none` when the key
matches no field. -/
def lookupField (t : Tables) (key : String) : Option Field :=
  match [Field.Name, .Email, .Address, .Mobile, .CreatedAt].find?
      (fun f => decide (f.tag = key)) with
  | some f => some f
  | none =>
    [Field.Name, .Email, .Address, .Mobile, .CreatedAt].find?
      (fun f => decide (foldName t f.tag = foldName t key))

/-- The method `saveError` of the decoder: the first saved error is kept. -/
def saveError (saved : Option String) (err : String) : Option String :=
  match saved with
  | some first => some first
  | none => some err

/-- The decoding of a member value into one of the four string fields: a
string is stored, `null` changes nothing, any other kind is a saved
type error. -/
def decodeString (m : Member) (tag : String) (set : String → createContactHandler.Request)
    (rs : createContactHandler.Request) (saved : Option String) :
    createContactHandler.Request × Option String :=
  match m.value with
  | .string s => (set s, saved)
  | .null => (rs, saved)
  | .other kind =>
    (rs, saveError saved
      ("json: cannot unmarshal " ++ kind ++ " into Go struct field Request." ++ tag ++
        " of type string"))

/-- The decoding of the members of an object into the local `Request`, one
after the other.  A key that matches no field is skipped, and is a saved
error when `disallowUnknownFields` is set; an error of `Time.UnmarshalJSON`
ends the decoding at once. -/
def decodeObject (t : Tables) (disallowUnknownFields : Bool) :
    List Member → createContactHandler.Request → Option String →
    Except String (createContactHandler.Request × Option String)
  | [], rs, saved => .ok (rs, saved)
  | m :: ms, rs, saved =>
    match lookupField t m.key with
    | none =>
      if disallowUnknownFields then
        decodeObject t disallowUnknownFields ms rs
          (saveError saved ("json: unknown field " ++ t.Quote m.key))
      else decodeObject t disallowUnknownFields ms rs saved
    | some .Name =>
      match decodeString m "name" (fun s => { rs with Name := s }) rs saved with
      | (rs, saved) => decodeObject t disallowUnknownFields ms rs saved
    | some .Email =>
      match decodeString m "email" (fun s => { rs with Email := s }) rs saved with
      | (rs, saved) => decodeObject t disallowUnknownFields ms rs saved
    | some .Address =>
      match decodeString m "address" (fun s => { rs with Address := s }) rs saved with
      | (rs, saved) => decodeObject t disallowUnknownFields ms rs saved
    | some .Mobile =>
      match decodeString m "mobile" (fun s => { rs with Mobile := s }) rs saved with
      | (rs, saved) => decodeObject t disallowUnknownFields ms rs saved
    | some .CreatedAt =>
      match m.value with
      | .null => decodeObject t disallowUnknownFields ms rs saved
      | _ =>
        match t.UnmarshalTime m.raw with
        | .error err => .error err
        | .ok tm => decodeObject t disallowUnknownFields ms { rs with CreatedAt := tm } saved

/-- A `json.Decoder`: the text it reads and whether `DisallowUnknownFields`
was called on it. -/
structure Decoder where
  body : String
  disallowUnknownFields : Bool
  deriving DecidableEq, Repr

/-- The function `json.NewDecoder`. -/
def NewDecoder (body : String) : Decoder :=
  { body := body, disallowUnknownFields := false }

/-- The method `DisallowUnknownFields`. -/
def Decoder.DisallowUnknownFields (dec : Decoder) : Decoder :=
  { dec with disallowUnknownFields := true }

/-- The method `Decode` into a zero-valued local `Request`: the first JSON
value of the body is scanned; `null` leaves the zero value, an object is
decoded member by member and the saved error, if any, is returned at the
end, any other value is a type error. -/
def Decoder.Decode (t : Tables) (dec : Decoder) : Except String createContactHandler.Request :=
  match t.readValue dec.body with
  | .error err => .error err
  | .ok .null => .ok ⟨"", "", "", "", Time.zero⟩
  | .ok (.other kind) =>
    .error ("json: cannot unmarshal " ++ kind ++ " into Go value of type main.Request")
  | .ok (.object members) =>
    match decodeObject t dec.disallowUnknownFields members ⟨"", "", "", "", Time.zero⟩ none with
    | .error err => .error err
    | .ok (_, some err) => .error err
    | .ok (rs, none) => .ok rs

/-- The library as `createContactHandler` uses it, over given tables: the
decoder is the one on which `DisallowUnknownFields` was called. -/
def goLibrary (t : Tables) : Library where
  ParseMediaType := ParseMediaType t
  Decode := fun body => (NewDecoder body).DisallowUnknownFields.Decode t

/-! ## Sample values -/

/-- The contact of the routing scenarios of the specification. -/
def sampleContact : Contacts := ⟨"A", "a@x.com", "addr", "123", ⟨2020, 3, 5, 7, 0⟩⟩

/-- A book holding `sampleContact` and nothing else. -/
def sampleBook : AddressBook :=
  (CreateContact New "A" "a@x.com" "addr" "123" ⟨2020, 3, 5, 7, 0⟩).2

/-- A second contact created on the same day as `sampleContact`, later in
the day, and a third created on another day. -/
def sampleBook3 : AddressBook :=
  (CreateContact
    (CreateContact sampleBook "B" "b@x.com" "addr" "456" ⟨2020, 3, 5, 99, 0⟩).2
    "C" "c@x.com" "addr" "789" ⟨2020, 3, 6, 7, 0⟩).2

/-- The body of the first routing scenario of the specification. -/
def sampleBody : String :=
  "\x7b\"name\":\"A\",\"email\":\"a@x.com\",\"address\":\"addr\",\"mobile\":\"123\"," ++
  "\"createdAt\":\"2020-01-01T00:00:00Z\"\x7d"

/-- The body of the seventh routing scenario: an unrecognised member. -/
def unknownFieldBody : String :=
  "\x7b\"nickname\":\"x\",\"name\":\"A\",\"email\":\"a@x.com\"\x7d"

/-- A library that answers as the Go library does on the header values and
bodies of the routing scenarios of the specification, and refuses every
other text. -/
def sampleLib : Library where
  ParseMediaType := fun v =>
    if v = "application/json" then .ok "application/json"
    else if v = "application/json; charset=utf-8" then .ok "application/json"
    else if v = "text/plain" then .ok "text/plain"
    else .error "mime: no media type"
  Decode := fun body =>
    if body = sampleBody then .ok ⟨"A", "a@x.com", "addr", "123", ⟨2020, 1, 1, 0, 0⟩⟩
    else if body = unknownFieldBody then .error "json: unknown field \"nickname\""
    else .error "EOF"

/-- A reading of the clock, on 2026-11-01. -/
def sampleNow : Time := ⟨2026, 11, 1, 42, 0⟩

/-- A body whose one member is named `NAME`, in capitals. -/
def upperCaseBody : String :=
  "\x7b\"NAME\":\"A\"\x7d"

/-- Tables that answer as the Go library does on the header values and
bodies of the routing scenarios of the specification, which are all ASCII,
and refuse every other text. -/
def sampleTables : Tables where
  ToLower := fun c => c
  IsSpace := fun _ => false
  foldRune := fun c => c
  mediaParams := fun v =>
    if v = "; charset=utf-8" then none else some "mime: invalid media parameter"
  readValue := fun body =>
    if body = sampleBody then
      .ok (.object
        [⟨"name", .string "A", "\"A\""⟩, ⟨"email", .string "a@x.com", "\"a@x.com\""⟩,
         ⟨"address", .string "addr", "\"addr\""⟩, ⟨"mobile", .string "123", "\"123\""⟩,
         ⟨"createdAt", .string "2020-01-01T00:00:00Z", "\"2020-01-01T00:00:00Z\""⟩])
    else if body = unknownFieldBody then
      .ok (.object
        [⟨"nickname", .string "x", "\"x\""⟩, ⟨"name", .string "A", "\"A\""⟩,
         ⟨"email", .string "a@x.com", "\"a@x.com\""⟩])
    else if body = upperCaseBody then .ok (.object [⟨"NAME", .string "A", "\"A\""⟩])
    else .error "EOF"
  UnmarshalTime := fun raw =>
    if raw = "\"2020-01-01T00:00:00Z\"" then .ok ⟨2020, 1, 1, 0, 0⟩
    else .error "Time.UnmarshalJSON: input is not a JSON string"
  Quote := fun s => "\"" ++ s ++ "\""

/-! ## Lemmas on slices and on the two enumerating loops -/

theorem Slice.toList_append {α : Type} (s : Slice α) (x : α) :
    (s.append x).toList = s.toList ++ [x] := rfl

theorem foldl_append_toList (es : List (Sigma fun _ : String => Contacts))
    (s : Slice Contacts) :
    (es.foldl (fun acc e => acc.append e.2) s).toList = s.toList ++ es.map (·.2) := by
  induction es generalizing s with
  | nil => simp
  | cons e es ih => simp [ih, Slice.toList_append]

theorem GetAllContacts_toList (ab : AddressBook) :
    (GetAllContacts ab).1.toList
      = List.replicate ab.len Contacts.zero ++ ab.contacts.entries.map (·.2) := by
  exact foldl_append_toList ab.contacts.entries (Slice.make Contacts.zero ab.len)

theorem foldl_filter_toList (year month day : Int)
    (es : List (Sigma fun _ : String => Contacts)) (s : Slice Contacts) :
    (es.foldl
      (fun acc e =>
        let (y, m, d) := e.2.CreatedAt.Date
        if y = year ∧ m = month ∧ d = day then acc.append e.2 else acc) s).toList
      = s.toList
        ++ (es.filter (fun e => decide (e.2.CreatedAt.Date = (year, month, day)))).map (·.2) := by
  induction es generalizing s with
  | nil => simp
  | cons e es ih =>
    simp only [List.foldl_cons, ih]
    by_cases h : e.2.CreatedAt.Date = (year, month, day)
    · have h3 : e.2.CreatedAt.year = year ∧ e.2.CreatedAt.month = month
          ∧ e.2.CreatedAt.day = day := by
        simpa [Time.Date] using h
      simp [h, Time.Date, h3, Slice.toList_append]
    · have h3 : ¬ (e.2.CreatedAt.year = year ∧ e.2.CreatedAt.month = month
          ∧ e.2.CreatedAt.day = day) := by
        simpa [Time.Date] using h
      simp [h, Time.Date, h3]

theorem GetContactByCreatedDate_toList (ab : AddressBook) (year month day : Int) :
    (GetContactByCreatedDate ab year month day).1.toList
      = (ab.contacts.entries.filter
          (fun e => decide (e.2.CreatedAt.Date = (year, month, day)))).map (·.2) := by
  exact foldl_filter_toList year month day ab.contacts.entries .null

/-! ## Lemmas on the map -/

theorem mem_GetContactByCreatedDate (ab : AddressBook) (year month day : Int) (c : Contacts) :
    c ∈ (GetContactByCreatedDate ab year month day).1.toList ↔
      ∃ k, (⟨k, c⟩ : Sigma fun _ : String => Contacts) ∈ ab.contacts.entries
        ∧ c.CreatedAt.Date = (year, month, day) := by
  rw [GetContactByCreatedDate_toList]
  simp only [List.mem_map, List.mem_filter, decide_eq_true_eq]
  constructor
  · rintro ⟨⟨k, c2⟩, ⟨hin, hdate⟩, rfl⟩
    exact ⟨k, hin, hdate⟩
  · rintro ⟨k, hk, hdate⟩
    exact ⟨⟨k, c⟩, ⟨hk, hdate⟩, rfl⟩


theorem lookup_eq_some_iff_mem_entries (m : AList (fun _ : String => Contacts))
    (k : String) (c : Contacts) :
    m.lookup k = some c ↔ (⟨k, c⟩ : Sigma fun _ : String => Contacts) ∈ m.entries := by
  constructor
  · intro h; exact AList.mem_lookup_iff.mp (by simpa using h)
  · intro h; simpa using AList.mem_lookup_iff.mpr h

theorem filter_key_eq_nil (es : List (Sigma fun _ : String => Contacts)) (e : String)
    (h : e ∉ es.keys) : es.filter (fun x => decide (x.1 = e)) = [] := by
  rw [List.filter_eq_nil_iff]
  intro x hx hxe
  have hk : x.1 = e := by simpa using hxe
  exact h (hk ▸ List.mem_keys_of_mem hx)

theorem len_insert (m : AList (fun _ : String => Contacts)) (e : String) (c : Contacts) :
    (m.insert e c).entries.length = (insert e m.keys.toFinset).card := by
  have hlen : (m.insert e c).entries.length = (m.insert e c).keys.length := by
    simp [AList.keys, List.keys]
  rw [hlen, AList.keys_insert]
  by_cases h : e ∈ m.keys
  · have h1 : insert e m.keys.toFinset = m.keys.toFinset :=
      Finset.insert_eq_of_mem (List.mem_toFinset.mpr h)
    rw [h1, List.toFinset_card_of_nodup m.keys_nodup, List.length_cons,
      List.length_erase_of_mem h]
    have : 0 < m.keys.length := List.length_pos_of_mem h
    omega
  · rw [Finset.card_insert_of_not_mem (by simpa using h),
      List.toFinset_card_of_nodup m.keys_nodup, List.erase_of_not_mem h, List.length_cons]

theorem not_mem_DeleteContact (ab : AddressBook) (e : String) :
    e ∉ (DeleteContact ab e).2.contacts := by
  cases h : ab.contacts.lookup e with
  | none => simpa [DeleteContact, h] using AList.lookup_eq_none.mp h
  | some c => simp [DeleteContact, h, AList.mem_erase]

theorem not_mem_run (ab : AddressBook) (e : String) (op : Op)
    (hop : ∀ n a m t, op ≠ Op.create n e a m t) (h : e ∉ ab.contacts) :
    e ∉ (op.run ab).contacts := by
  cases op with
  | create n e2 a m t =>
    have hne : e ≠ e2 := fun heq => hop n a m t (by rw [heq])
    simp [Op.run, CreateContact, AList.mem_insert, hne, h]
  | get e2 =>
    cases hl : ab.contacts.lookup e2 <;> simpa [Op.run, GetContact, hl] using h
  | delete e2 =>
    cases hl : ab.contacts.lookup e2 with
    | none => simpa [Op.run, DeleteContact, hl] using h
    | some c => simp [Op.run, DeleteContact, hl, AList.mem_erase, h]
  | deleteAll => simp [Op.run, DeleteAllContacts]
  | getAll => simpa [Op.run, GetAllContacts] using h
  | byDate y m d => simpa [Op.run, GetContactByCreatedDate] using h

theorem not_mem_runOps (ops : List Op) (ab : AddressBook) (e : String)
    (hops : ∀ n a m t, Op.create n e a m t ∉ ops) (h : e ∉ ab.contacts) :
    e ∉ (runOps ab ops).contacts := by
  induction ops generalizing ab with
  | nil => simpa [runOps] using h
  | cons op ops ih =>
    have hhead : ∀ n a m t, op ≠ Op.create n e a m t := by
      intro n a m t heq
      exact hops n a m t (by simp [heq])
    have htail : ∀ n a m t, Op.create n e a m t ∉ ops := by
      intro n a m t hmem
      exact hops n a m t (List.mem_cons_of_mem _ hmem)
    simpa [runOps] using ih (op.run ab) htail (not_mem_run ab e op hhead h)

theorem GetContact_of_not_mem (ab : AddressBook) (e : String) (h : e ∉ ab.contacts) :
    (GetContact ab e).1 = .error ("Contact with email=" ++ e ++ " not found") := by
  simp [GetContact, AList.lookup_eq_none.mpr h]

theorem DeleteContact_of_not_mem (ab : AddressBook) (e : String) (h : e ∉ ab.contacts) :
    (DeleteContact ab e).1 = some ("Contact with Email=" ++ e ++ " not found") := by
  simp [DeleteContact, AList.lookup_eq_none.mpr h]

/-! ## The store -/

/-- C1, at a book with one record: `GetAllContacts` returns two elements,
the zero-valued `Contacts` followed by the stored record, and not the one
stored record alone. -/
theorem GetAllContacts_sampleBook :
    sampleBook.len = 1 ∧
    (GetAllContacts sampleBook).1 = .ofList [Contacts.zero, sampleContact] ∧
    (GetAllContacts sampleBook).1.len = 2 ∧
    sampleBook.contacts.lookup "" = none := by
  decide

/-- C2: after two calls of `CreateContact` with the same email `e`, the map
has exactly one entry with key `e`, that entry carries the fields of the
second call, the number of records is the number of distinct keys of the
original book with `e` added, and it is the number there was after the
first call. -/
theorem CreateContact_twice (ab : AddressBook) (e n1 a1 m1 n2 a2 m2 : String)
    (t1 t2 : Time) :
    (CreateContact (CreateContact ab n1 e a1 m1 t1).2 n2 e a2 m2 t2).2.contacts.entries.filter
        (fun x => decide (x.1 = e))
      = [⟨e, ⟨n2, e, a2, m2, t2⟩⟩] ∧
    (CreateContact (CreateContact ab n1 e a1 m1 t1).2 n2 e a2 m2 t2).2.contacts.lookup e
      = some ⟨n2, e, a2, m2, t2⟩ ∧
    (CreateContact (CreateContact ab n1 e a1 m1 t1).2 n2 e a2 m2 t2).2.len
      = (insert e ab.contacts.keys.toFinset).card ∧
    (CreateContact (CreateContact ab n1 e a1 m1 t1).2 n2 e a2 m2 t2).2.len
      = (CreateContact ab n1 e a1 m1 t1).2.len := by
  have hstate : (CreateContact (CreateContact ab n1 e a1 m1 t1).2 n2 e a2 m2 t2).2
      = ⟨ab.contacts.insert e ⟨n2, e, a2, m2, t2⟩⟩ := by
    simp [CreateContact, AList.insert_insert]
  rw [hstate]
  refine ⟨?_, ?_, ?_, ?_⟩
  · have hk : e ∉ (List.kerase e ab.contacts.entries).keys :=
      List.not_mem_keys_kerase e ab.contacts.nodupKeys
    simp [AList.insert_entries, List.filter_cons, filter_key_eq_nil _ _ hk]
  · simp [AList.lookup_insert]
  · exact len_insert _ _ _
  · simp only [AddressBook.len, CreateContact, len_insert]

/-- C3: `CreateContact` returns the email it was given, and a `GetContact`
of that email right after returns the record made of the five supplied
values, the timestamp included. -/
theorem CreateContact_GetContact (ab : AddressBook) (name email address mobile : String)
    (createdAt : Time) :
    (CreateContact ab name email address mobile createdAt).1 = email ∧
    (GetContact (CreateContact ab name email address mobile createdAt).2 email).1
      = .ok ⟨name, email, address, mobile, createdAt⟩ := by
  simp [CreateContact, GetContact, AList.lookup_insert]

/-- C4: `GetContact` returns the stored record, unchanged, exactly when
there is one at the key; it fails exactly when the key is absent, and then
the error reads `Contact with email=<email> not found`; in that case
`getContactHandler` answers 404 with that message (and a newline) as body.
The book is left as it was. -/
theorem GetContact_spec (ab : AddressBook) (email : String) (req : Request) :
    (∀ c, (GetContact ab email).1 = .ok c ↔ ab.contacts.lookup email = some c) ∧
    ((∃ msg, (GetContact ab email).1 = .error msg) ↔ email ∉ ab.contacts) ∧
    ((GetContact ab email).1 = .error ("Contact with email=" ++ email ++ " not found")
      ↔ email ∉ ab.contacts) ∧
    (GetContact ab email).2 = ab ∧
    ((getContactHandler ab req email).1.status = 404 ↔ email ∉ ab.contacts) ∧
    (email ∉ ab.contacts →
      (getContactHandler ab req email).1.body
        = .text ("Contact with email=" ++ email ++ " not found" ++ "\n")) := by
  cases h : ab.contacts.lookup email with
  | none =>
    have hmem : email ∉ ab.contacts := AList.lookup_eq_none.mp h
    simp [GetContact, getContactHandler, h, hmem, httpError]
  | some c =>
    have hmem : email ∈ ab.contacts := by
      rw [← AList.lookup_isSome, h]; rfl
    simp only [GetContact, getContactHandler, h, hmem]
    cases hj : jsonMarshalContact c <;> simp [httpError, writeJSON, eq_comm]

/-- C4, at the request `GET /contact/missing@x.com` on the sample book. -/
theorem GetContact_spec_witness :
    (getContactHandler sampleBook ⟨"GET", "/contact/missing@x.com", "", ""⟩
        "missing@x.com").1
      = { status := 404
          headers := [("Content-Type", "text/plain; charset=utf-8"),
                      ("X-Content-Type-Options", "nosniff")]
          body := .text "Contact with email=missing@x.com not found\n" } ∧
    (GetContact sampleBook "a@x.com").1 = .ok sampleContact := by
  have h := GetContact_spec sampleBook "a@x.com" ⟨"GET", "/contact/a@x.com", "", ""⟩
  exact ⟨by decide, (h.1 sampleContact).mpr (by decide)⟩

/-- C5: `DeleteContact` fails, with the text `Contact with Email=<email> not
found`, exactly when the key is absent, and then leaves the book as it was;
when the key is present it returns the nil error, the key is absent
afterwards and every other key maps to what it mapped to before. -/
theorem DeleteContact_spec (ab : AddressBook) (email : String) :
    ((DeleteContact ab email).1 = some ("Contact with Email=" ++ email ++ " not found")
      ↔ email ∉ ab.contacts) ∧
    ((DeleteContact ab email).1 = none ↔ email ∈ ab.contacts) ∧
    (email ∉ ab.contacts → (DeleteContact ab email).2 = ab) ∧
    (email ∈ ab.contacts →
      email ∉ (DeleteContact ab email).2.contacts ∧
      ∀ k, k ≠ email →
        (DeleteContact ab email).2.contacts.lookup k = ab.contacts.lookup k) := by
  cases h : ab.contacts.lookup email with
  | none =>
    have hmem : email ∉ ab.contacts := AList.lookup_eq_none.mp h
    simp [DeleteContact, h, hmem]
  | some c =>
    have hmem : email ∈ ab.contacts := by
      rw [← AList.lookup_isSome, h]; rfl
    simp only [DeleteContact, h, hmem]
    refine ⟨by simp, by simp, by simp, fun _ => ⟨?_, ?_⟩⟩
    · simp [AList.mem_erase]
    · intro k hk
      exact AList.lookup_erase_ne hk

/-- C5, on the sample book: deleting the stored key succeeds and empties the
book, deleting another key fails and changes nothing. -/
theorem DeleteContact_spec_witness :
    ("a@x.com" ∉ (DeleteContact sampleBook "a@x.com").2.contacts ∧
      ∀ k, k ≠ "a@x.com" →
        (DeleteContact sampleBook "a@x.com").2.contacts.lookup k
          = sampleBook.contacts.lookup k) ∧
    (DeleteContact sampleBook "b@x.com").2 = sampleBook :=
  ⟨(DeleteContact_spec sampleBook "a@x.com").2.2.2 (by decide),
   (DeleteContact_spec sampleBook "b@x.com").2.2.1 (by decide)⟩

/-- C6: when `DeleteContact e` succeeds, a `GetContact e` right after fails
with the not-found error, and so does every later `DeleteContact e` (and
`GetContact e`) reached through any sequence of calls none of which is a
`CreateContact` with email `e`. -/
theorem DeleteContact_then_absent (ab : AddressBook) (e : String)
    (_hdel : (DeleteContact ab e).1 = none) :
    (GetContact (DeleteContact ab e).2 e).1
      = .error ("Contact with email=" ++ e ++ " not found") ∧
    ∀ ops : List Op, (∀ n a m t, Op.create n e a m t ∉ ops) →
      (DeleteContact (runOps (DeleteContact ab e).2 ops) e).1
        = some ("Contact with Email=" ++ e ++ " not found") ∧
      (GetContact (runOps (DeleteContact ab e).2 ops) e).1
        = .error ("Contact with email=" ++ e ++ " not found") := by
  have h0 := not_mem_DeleteContact ab e
  refine ⟨GetContact_of_not_mem _ _ h0, fun ops hops => ?_⟩
  have h1 := not_mem_runOps ops _ e hops h0
  exact ⟨DeleteContact_of_not_mem _ _ h1, GetContact_of_not_mem _ _ h1⟩

/-- C6, on the sample book: its one key is deleted with success, after
which it stays absent through reads, deletes and creates of other keys. -/
theorem DeleteContact_then_absent_witness :
    (DeleteContact sampleBook "a@x.com").1 = none ∧
    (GetContact (DeleteContact sampleBook "a@x.com").2 "a@x.com").1
      = .error "Contact with email=a@x.com not found" ∧
    (DeleteContact
        (runOps (DeleteContact sampleBook "a@x.com").2
          [.delete "a@x.com", .create "B" "b@x.com" "addr" "456" ⟨2021, 1, 1, 0, 0⟩, .getAll])
        "a@x.com").1
      = some "Contact with Email=a@x.com not found" :=
  ⟨by decide,
   (DeleteContact_then_absent sampleBook "a@x.com" (by decide)).1,
   ((DeleteContact_then_absent sampleBook "a@x.com" (by decide)).2
      [.delete "a@x.com", .create "B" "b@x.com" "addr" "456" ⟨2021, 1, 1, 0, 0⟩, .getAll]
      (by simp)).1⟩

/-- C7: `DeleteAllContacts` returns the nil error whatever the book held,
a `GetAllContacts` right after returns a slice of length 0, and a
`GetContact` of any key right after fails with the not-found error. -/
theorem DeleteAllContacts_spec (ab : AddressBook) :
    (DeleteAllContacts ab).1 = none ∧
    (GetAllContacts (DeleteAllContacts ab).2).1 = .ofList [] ∧
    (GetAllContacts (DeleteAllContacts ab).2).1.len = 0 ∧
    ∀ k, (GetContact (DeleteAllContacts ab).2 k).1
      = .error ("Contact with email=" ++ k ++ " not found") := by
  refine ⟨rfl, rfl, rfl, fun k => ?_⟩
  exact GetContact_of_not_mem _ _ (AList.not_mem_empty k)

/-- C8: `GetContactByCreatedDate` returns the records of the entries whose
`CreatedAt` has the given year, month and day, one element per such entry
and nothing else, whatever the time of day; a record is in the result
exactly when it is stored at some key and has that date; the result has
length 0 exactly when no stored record has that date; when every record is
stored under its own email, no record occurs twice in the result. -/
theorem GetContactByCreatedDate_spec (ab : AddressBook) (year month day : Int) :
    (GetContactByCreatedDate ab year month day).1.toList
      = (ab.contacts.entries.filter
          (fun e => decide (e.2.CreatedAt.Date = (year, month, day)))).map (·.2) ∧
    (∀ c, c ∈ (GetContactByCreatedDate ab year month day).1.toList ↔
      ∃ k, ab.contacts.lookup k = some c ∧ c.CreatedAt.Date = (year, month, day)) ∧
    ((GetContactByCreatedDate ab year month day).1.len = 0 ↔
      ∀ k c, ab.contacts.lookup k = some c → c.CreatedAt.Date ≠ (year, month, day)) ∧
    ((∀ k c, ab.contacts.lookup k = some c → c.Email = k) →
      (GetContactByCreatedDate ab year month day).1.toList.Nodup) := by
  have hmem : ∀ c, c ∈ (GetContactByCreatedDate ab year month day).1.toList ↔
      ∃ k, ab.contacts.lookup k = some c ∧ c.CreatedAt.Date = (year, month, day) := by
    intro c
    rw [GetContactByCreatedDate_toList]
    simp only [List.mem_map, List.mem_filter, decide_eq_true_eq]
    constructor
    · rintro ⟨⟨k, c2⟩, ⟨hin, hdate⟩, rfl⟩
      exact ⟨k, (lookup_eq_some_iff_mem_entries _ _ _).mpr hin, hdate⟩
    · rintro ⟨k, hk, hdate⟩
      exact ⟨⟨k, c⟩, ⟨(lookup_eq_some_iff_mem_entries _ _ _).mp hk, hdate⟩, rfl⟩
  refine ⟨GetContactByCreatedDate_toList ab year month day, hmem, ?_, ?_⟩
  · rw [Slice.len, List.length_eq_zero]
    constructor
    · intro hnil k c hk hdate
      have : c ∈ (GetContactByCreatedDate ab year month day).1.toList :=
        (hmem c).mpr ⟨k, hk, hdate⟩
      rw [hnil] at this
      exact List.not_mem_nil _ this
    · intro hnone
      apply List.eq_nil_iff_forall_not_mem.mpr
      intro c hc
      obtain ⟨k, hk, hdate⟩ := (hmem c).mp hc
      exact hnone k c hk hdate
  · intro hkey
    rw [GetContactByCreatedDate_toList]
    have hnd : ab.contacts.entries.Nodup := List.NodupKeys.nodup ab.contacts.nodupKeys
    apply List.Nodup.map_on _ (hnd.filter _)
    rintro ⟨k1, c1⟩ h1 ⟨k2, c2⟩ h2 heq
    have heq2 : c1 = c2 := heq
    have e1 := hkey k1 c1 ((lookup_eq_some_iff_mem_entries _ _ _).mpr (List.mem_filter.mp h1).1)
    have e2 := hkey k2 c2 ((lookup_eq_some_iff_mem_entries _ _ _).mpr (List.mem_filter.mp h2).1)
    subst heq2
    have : k1 = k2 := by rw [← e1, ← e2]
    subst this
    rfl

/-- C8, on a book with two contacts created on 2020-03-05 at different
times of day and one created the day after: the query for 2020-03-05
returns the first two, once each. -/
theorem GetContactByCreatedDate_spec_witness :
    (GetContactByCreatedDate sampleBook3 2020 3 5).1.toList.Nodup ∧
    (∀ c, c ∈ (GetContactByCreatedDate sampleBook3 2020 3 5).1.toList ↔
      ∃ k, sampleBook3.contacts.lookup k = some c ∧ c.CreatedAt.Date = (2020, 3, 5)) ∧
    (GetContactByCreatedDate sampleBook3 2020 3 5).1
      = .ofList [⟨"B", "b@x.com", "addr", "456", ⟨2020, 3, 5, 99, 0⟩⟩, sampleContact] :=
  ⟨(GetContactByCreatedDate_spec sampleBook3 2020 3 5).2.2.2 (by
      intro k c h
      have hin := (lookup_eq_some_iff_mem_entries _ _ _).mp h
      have hall : ∀ x ∈ sampleBook3.contacts.entries, x.2.Email = x.1 := by decide
      exact hall ⟨k, c⟩ hin),
   (GetContactByCreatedDate_spec sampleBook3 2020 3 5).2.1,
   by decide⟩

/-! ## The date route -/

/-- Whatever the store holds, a date query that matches no stored contact
is answered with the JSON document `null`. -/
theorem createdAtHandler_null_of_no_match (store : AddressBook) (req : Request)
    (year month day : Int) (hget : req.Method = "GET")
    (hlen : (pathPartsOf req.Path).length = 4)
    (hy : Atoi ((pathPartsOf req.Path).getD 1 "") = some year)
    (hm : Atoi ((pathPartsOf req.Path).getD 2 "") = some month)
    (hd : Atoi ((pathPartsOf req.Path).getD 3 "") = some day)
    (hlo : 1 ≤ month) (hhi : month ≤ 12)
    (hnone : ∀ k c, store.contacts.lookup k = some c →
      c.CreatedAt.Date ≠ (year, month, day)) :
    (createdAtHandler store req).1 = writeJSON .null := by
  have hfold : ∀ (es : List (Sigma fun _ : String => Contacts)),
      (∀ x ∈ es, x.2.CreatedAt.Date ≠ (year, month, day)) →
      es.foldl
        (fun acc e =>
          let (y, m, d) := e.2.CreatedAt.Date
          if y = year ∧ m = month ∧ d = day then acc.append e.2 else acc)
        (Slice.null : Slice Contacts) = .null := by
    intro es
    induction es with
    | nil => intro _; rfl
    | cons e es ih =>
      intro hall
      have he : ¬ (e.2.CreatedAt.year = year ∧ e.2.CreatedAt.month = month
          ∧ e.2.CreatedAt.day = day) := by
        have := hall e (List.mem_cons_self _ _)
        simpa [Time.Date] using this
      simp only [List.foldl_cons, Time.Date, he, if_false]
      exact ih (fun x hx => hall x (List.mem_cons_of_mem _ hx))
  have hres : (GetContactByCreatedDate store year month day).1 = .null :=
    hfold _ (fun x hx => hnone x.1 x.2
      ((lookup_eq_some_iff_mem_entries _ _ _).mpr hx))
  unfold createdAtHandler
  unfold pathPartsOf at hlen hy hm hd
  have hmr : ¬ (month < 1 ∨ month > 12) := by omega
  dsimp only
  simp only [hget, ne_eq, not_true_eq_false, ↓reduceIte, hlen, hy, hm, hd, hmr, hres,
    jsonMarshalSlice]

/-- C10, at `GET /createdAt/2020/3/5` on the empty store: the response is
200 with the JSON document `null` as body, which is not the empty array. -/
theorem createdAtHandler_empty_store :
    (createdAtHandler New ⟨"GET", "/createdAt/2020/3/5", "", ""⟩).1
      = { status := 200
          headers := [("Content-Type", "application/json")]
          body := .json .null } ∧
    (createdAtHandler New ⟨"GET", "/createdAt/2020/3/5", "", ""⟩).1.body
      ≠ .json (.array []) ∧
    (getAllContactsHandler New ⟨"GET", "/contact/", "", ""⟩).1.body = .json (.array []) := by
  decide

/-! ## Lemmas on trimming and splitting -/

theorem slash_contains (c : Char) : "/".data.contains c = true ↔ c = '/' := by
  simp

theorem Trim_data (s : String) :
    (Trim s "/").data
      = List.rdropWhile (fun c => "/".data.contains c)
          (s.data.dropWhile (fun c => "/".data.contains c)) := rfl

theorem Trim_head_ne (s : String) (c : Char) (cs : List Char)
    (h : (Trim s "/").data = c :: cs) : c ≠ '/' := by
  rw [Trim_data] at h
  have hpre := List.rdropWhile_prefix (fun c => "/".data.contains c)
    (s.data.dropWhile (fun c => "/".data.contains c))
  rw [h] at hpre
  obtain ⟨t, ht⟩ := hpre
  have hnot := List.head?_dropWhile_not (fun c => "/".data.contains c) s.data
  rw [← ht] at hnot
  simpa using hnot

theorem Trim_last_ne (s : String) (hne : (Trim s "/").data ≠ []) :
    (Trim s "/").data.getLast hne ≠ '/' := by
  have h := List.rdropWhile_last_not (fun c => "/".data.contains c)
    (s.data.dropWhile (fun c => "/".data.contains c)) hne
  intro hc
  exact h ((slash_contains _).mpr hc)

theorem splitChars_ne_nil (sep : Char) (l : List Char) : splitChars sep l ≠ [] := by
  cases l with
  | nil => simp [splitChars]
  | cons c cs =>
    unfold splitChars
    split_ifs
    · simp
    · split <;> simp

theorem splitChars_cons_of_ne (sep c : Char) (cs : List Char) (h : c ≠ sep) :
    ∃ p ps, splitChars sep (c :: cs) = (c :: p) :: ps := by
  unfold splitChars
  rw [if_neg h]
  split
  · exact ⟨[], [], rfl⟩
  · exact ⟨_, _, rfl⟩

theorem splitChars_getLast_ne_nil (sep : Char) (l : List Char) (hne : l ≠ [])
    (hlast : l.getLast hne ≠ sep) :
    (splitChars sep l).getLast (splitChars_ne_nil sep l) ≠ [] := by
  induction l with
  | nil => exact absurd rfl hne
  | cons c cs ih =>
    cases cs with
    | nil =>
      have hc : c ≠ sep := by simpa using hlast
      simp [splitChars, hc]
    | cons d ds =>
      have hlast2 : (d :: ds).getLast (by simp) ≠ sep := by
        simpa [List.getLast_cons] using hlast
      have ih2 := ih (by simp) hlast2
      have hnn := splitChars_ne_nil sep (d :: ds)
      by_cases hc : c = sep
      · have : splitChars sep (c :: d :: ds) = [] :: splitChars sep (d :: ds) := by
          rw [splitChars, if_pos hc]
        simp only [this, List.getLast_cons hnn]
        exact ih2
      · obtain ⟨p, ps, hps⟩ : ∃ p ps, splitChars sep (d :: ds) = p :: ps := by
          cases h : splitChars sep (d :: ds) with
          | nil => exact absurd h hnn
          | cons p ps => exact ⟨p, ps, rfl⟩
        have : splitChars sep (c :: d :: ds) = (c :: p) :: ps := by
          rw [splitChars, if_neg hc, hps]
        simp only [this]
        simp only [hps] at ih2
        cases ps with
        | nil => simp
        | cons q qs =>
          simpa [List.getLast_cons] using ih2

theorem splitChars_of_not_mem (sep : Char) (l : List Char) (h : sep ∉ l) :
    splitChars sep l = [l] := by
  induction l with
  | nil => rfl
  | cons c cs ih =>
    have hc : c ≠ sep := fun heq => h (by simp [heq])
    have hcs : sep ∉ cs := fun hmem => h (List.mem_cons_of_mem _ hmem)
    rw [splitChars, if_neg hc, ih hcs]

theorem String_mk_ne_empty (l : List Char) (h : l ≠ []) : String.mk l ≠ "" := by
  intro heq
  exact h (congrArg String.data heq)

/-- A path with at least two parts has a non-empty first part and a
non-empty last part. -/
theorem pathPartsOf_shape (path : String) (h : 2 ≤ (pathPartsOf path).length) :
    ∃ a rest b, pathPartsOf path = a :: (rest ++ [b]) ∧ a ≠ "" ∧ b ≠ "" := by
  unfold pathPartsOf Split at h ⊢
  cases ht : (Trim path "/").data with
  | nil => rw [ht] at h; simp [splitChars] at h
  | cons c cs =>
    have hc : c ≠ '/' := Trim_head_ne path c cs ht
    have hne : (Trim path "/").data ≠ [] := by rw [ht]; simp
    have hlast := splitChars_getLast_ne_nil '/' _ hne (Trim_last_ne path hne)
    obtain ⟨p, ps, hps⟩ := splitChars_cons_of_ne '/' c cs hc
    rw [ht] at h
    simp only [ht] at hlast
    rw [hps] at h
    simp only [hps] at hlast
    have hpsne : ps ≠ [] := by
      intro hnil; rw [hnil] at h; simp at h
    rw [List.getLast_cons hpsne] at hlast
    refine ⟨String.mk (c :: p), ps.dropLast.map String.mk, String.mk (ps.getLast hpsne), ?_,
      String_mk_ne_empty _ (by simp), String_mk_ne_empty _ hlast⟩
    rw [hps]
    conv_lhs => rw [← List.dropLast_append_getLast hpsne]
    simp

/-- The parts of `/contact/<key>` for a key that is one non-empty URL
segment are `contact` and the key. -/
theorem pathPartsOf_contact_key (key : String) (hne : key ≠ "") (hseg : '/' ∉ key.data) :
    pathPartsOf ("/contact/" ++ key) = ["contact", key] := by
  have hk : key.data ≠ [] := fun h => hne (by
    cases key; simp_all)
  have hdata : ("/contact/" ++ key).data
      = '/' :: 'c' :: 'o' :: 'n' :: 't' :: 'a' :: 'c' :: 't' :: '/' :: key.data := by
    rw [String.data_append]; rfl
  have hlastmem : ('c' :: 'o' :: 'n' :: 't' :: 'a' :: 'c' :: 't' :: '/' :: key.data).getLast
      (by simp) ∈ key.data := by
    have : ('c' :: 'o' :: 'n' :: 't' :: 'a' :: 'c' :: 't' :: '/' :: key.data).getLast (by simp)
        = key.data.getLast hk := by
      simp [List.getLast_cons, hk]
    rw [this]
    exact List.getLast_mem hk
  have htrim : (Trim ("/contact/" ++ key) "/").data
      = 'c' :: 'o' :: 'n' :: 't' :: 'a' :: 'c' :: 't' :: '/' :: key.data := by
    rw [Trim_data, hdata]
    have hdrop : List.dropWhile (fun c => "/".data.contains c)
        ('/' :: 'c' :: 'o' :: 'n' :: 't' :: 'a' :: 'c' :: 't' :: '/' :: key.data)
        = 'c' :: 'o' :: 'n' :: 't' :: 'a' :: 'c' :: 't' :: '/' :: key.data := by
      simp [List.dropWhile]
    rw [hdrop, List.rdropWhile_eq_self_iff]
    intro hl hp
    have hsl := (slash_contains _).mp hp
    exact hseg (hsl ▸ hlastmem)
  unfold pathPartsOf Split
  rw [htrim]
  simp [splitChars, splitChars_of_not_mem '/' key.data hseg]

/-! ## Lemmas on the handlers -/

theorem deleteContactHandler_of_not_mem (store : AddressBook) (req : Request) (key : String)
    (h : key ∉ store.contacts) :
    deleteContactHandler store req key
      = (httpError ("Contact with Email=" ++ key ++ " not found") 404, store) := by
  simp [deleteContactHandler, DeleteContact, AList.lookup_eq_none.mpr h]

theorem deleteContactHandler_status (store : AddressBook) (req : Request) (key : String) :
    (deleteContactHandler store req key).1.status = 404 ∨
    (deleteContactHandler store req key).1.status = 200 := by
  unfold deleteContactHandler DeleteContact
  cases ab : store.contacts.lookup key <;> simp [httpError, noContent]

theorem getContactHandler_status (store : AddressBook) (req : Request) (key : String) :
    (getContactHandler store req key).1.status = 404 ∨
    (getContactHandler store req key).1.status = 500 ∨
    (getContactHandler store req key).1.status = 200 := by
  unfold getContactHandler GetContact
  cases ab : store.contacts.lookup key with
  | none => simp [httpError]
  | some c => cases hj : jsonMarshalContact c <;> simp [hj, httpError, writeJSON]

theorem contactHandler_item (lib : Library) (now : Time) (store : AddressBook) (req : Request)
    (hpath : req.Path ≠ "/contact/") (hshape : 2 ≤ (pathPartsOf req.Path).length) :
    contactHandler lib now store req
      = if req.Method = "DELETE" then
          deleteContactHandler store req ((pathPartsOf req.Path).getD 1 "")
        else if req.Method = "GET" then
          getContactHandler store req ((pathPartsOf req.Path).getD 1 "")
        else
          (httpError ("expect method GET or DELETE at /contact/<emailid>, got " ++ req.Method)
            405, store) := by
  unfold contactHandler
  unfold pathPartsOf at hshape ⊢
  have hlt : ¬ (Split (Trim req.Path "/") '/').length < 2 := by omega
  simp only [hpath, hlt, if_false]

theorem contactHandler_short (lib : Library) (now : Time) (store : AddressBook) (req : Request)
    (hpath : req.Path ≠ "/contact/") (hshape : (pathPartsOf req.Path).length < 2) :
    contactHandler lib now store req
      = (httpError "expect /contact/<emailid> in contact handler" 400, store) := by
  unfold contactHandler
  unfold pathPartsOf at hshape
  simp only [hpath, hshape, if_false, if_true]

/-! ## The contact routes -/

/-- C11, at `DELETE /contact/missing@x.com` on the empty store: the answer
is 404 and the store is unchanged, but the text reads `Contact with
Email=...`, with a capital E, which is not the text a failed get of the
same key gives. -/
theorem contactHandler_delete_missing :
    (contactHandler sampleLib sampleNow New
        ⟨"DELETE", "/contact/missing@x.com", "", ""⟩).1
      = { status := 404
          headers := [("Content-Type", "text/plain; charset=utf-8"),
                      ("X-Content-Type-Options", "nosniff")]
          body := .text "Contact with Email=missing@x.com not found\n" } ∧
    (contactHandler sampleLib sampleNow New
        ⟨"DELETE", "/contact/missing@x.com", "", ""⟩).1.body
      ≠ .text "Contact with email=missing@x.com not found\n" ∧
    (contactHandler sampleLib sampleNow New
        ⟨"GET", "/contact/missing@x.com", "", ""⟩).1.body
      = .text "Contact with email=missing@x.com not found\n" ∧
    (contactHandler sampleLib sampleNow New
        ⟨"DELETE", "/contact/missing@x.com", "", ""⟩).2.len = 0 := by
  decide

/-- C12: for a path other than `/contact/`, `contactHandler` answers 400
exactly when the trimmed and split path has fewer than two parts, and then
leaves the store as it was; and for every path, having fewer than two parts
is the same as having fewer than two non-empty parts. -/
theorem contactHandler_shape (lib : Library) (now : Time) (store : AddressBook)
    (req : Request) (hpath : req.Path ≠ "/contact/") :
    ((contactHandler lib now store req).1.status = 400 ↔
      ((pathPartsOf req.Path).filter (fun part => decide (part ≠ ""))).length < 2) ∧
    ((contactHandler lib now store req).1.status = 400 ↔
      (pathPartsOf req.Path).length < 2) ∧
    ((pathPartsOf req.Path).length < 2 →
      contactHandler lib now store req
        = (httpError "expect /contact/<emailid> in contact handler" 400, store)) ∧
    (∀ path : String,
      (pathPartsOf path).length < 2 ↔
        ((pathPartsOf path).filter (fun part => decide (part ≠ ""))).length < 2) := by
  suffices hmain : ((contactHandler lib now store req).1.status = 400 ↔
        (pathPartsOf req.Path).length < 2) ∧
      ((pathPartsOf req.Path).length < 2 →
        contactHandler lib now store req
          = (httpError "expect /contact/<emailid> in contact handler" 400, store)) ∧
      (∀ path : String,
        (pathPartsOf path).length < 2 ↔
          ((pathPartsOf path).filter (fun part => decide (part ≠ ""))).length < 2) from
    ⟨hmain.1.trans (hmain.2.2 req.Path), hmain⟩
  refine ⟨?_, contactHandler_short lib now store req hpath, ?_⟩
  · by_cases hlen : (pathPartsOf req.Path).length < 2
    · simp [contactHandler_short lib now store req hpath hlen, hlen, httpError]
    · have hshape : 2 ≤ (pathPartsOf req.Path).length := by omega
      rw [contactHandler_item lib now store req hpath hshape]
      have hd := deleteContactHandler_status store req ((pathPartsOf req.Path).getD 1 "")
      have hg := getContactHandler_status store req ((pathPartsOf req.Path).getD 1 "")
      constructor
      · intro h400
        exfalso
        split_ifs at h400
        · omega
        · omega
        · simp [httpError] at h400
      · intro h; exact absurd h hlen
  · intro path
    constructor
    · intro h
      exact lt_of_le_of_lt (List.length_filter_le _ _) h
    · intro h
      by_contra hlen
      obtain ⟨a, rest, b, hparts, ha, hb⟩ := pathPartsOf_shape path (by omega)
      rw [hparts] at h
      simp [List.filter_cons, List.filter_append, ha, hb] at h
      omega

/-- C12, at `PUT /contact//` (one part after trimming, 400) and at
`GET /contact//x` (three parts, one of them empty, not 400). -/
theorem contactHandler_shape_witness :
    (contactHandler sampleLib sampleNow sampleBook ⟨"PUT", "/contact//", "", ""⟩).1.status
      = 400 ∧
    (contactHandler sampleLib sampleNow sampleBook ⟨"GET", "/contact//x", "", ""⟩).1.status
      ≠ 400 :=
  ⟨(contactHandler_shape sampleLib sampleNow sampleBook ⟨"PUT", "/contact//", "", ""⟩
      (by decide)).1.mpr (by decide),
   fun h => absurd
     ((contactHandler_shape sampleLib sampleNow sampleBook ⟨"GET", "/contact//x", "", ""⟩
        (by decide)).2.1.mp h) (by decide)⟩

/-- C13: on `POST /contact/` with a content type that parses to
`application/json` and a body that decodes to `rs`, the store afterwards
holds at key `rs.Email` the record with the name, email, address and mobile
of `rs` and with the clock reading `now` as `CreatedAt`, whatever
`rs.CreatedAt` is; nothing else in the store changes; the response is 200
with the JSON object of the one member `email`. -/
theorem contactHandler_create (lib : Library) (now : Time) (store : AddressBook)
    (req : Request) (rs : createContactHandler.Request)
    (hpath : req.Path = "/contact/") (hmethod : req.Method = "POST")
    (hct : lib.ParseMediaType req.ContentType = .ok "application/json")
    (hdec : lib.Decode req.Body = .ok rs) :
    (contactHandler lib now store req).2.contacts.lookup rs.Email
      = some ⟨rs.Name, rs.Email, rs.Address, rs.Mobile, now⟩ ∧
    (contactHandler lib now store req).2
      = (CreateContact store rs.Name rs.Email rs.Address rs.Mobile now).2 ∧
    (contactHandler lib now store req).1
      = { status := 200
          headers := [("Content-Type", "application/json")]
          body := .json (.object [("email", .str rs.Email)]) } := by
  have hrun : contactHandler lib now store req
      = (writeJSON (.object [("email", .str rs.Email)]),
          (CreateContact store rs.Name rs.Email rs.Address rs.Mobile now).2) := by
    unfold contactHandler createContactHandler
    simp only [hpath, hmethod, hct, hdec, if_true]
    simp [CreateContact, jsonMarshalResponse]
  rw [hrun]
  exact ⟨by simp [CreateContact, AList.lookup_insert], rfl, rfl⟩

/-- C13, at the first routing scenario: the body says 2020-01-01, the stored
record carries the clock reading. -/
theorem contactHandler_create_witness :
    (contactHandler sampleLib sampleNow New
        ⟨"POST", "/contact/", "application/json", sampleBody⟩).2.contacts.lookup "a@x.com"
      = some ⟨"A", "a@x.com", "addr", "123", sampleNow⟩ ∧
    (contactHandler sampleLib sampleNow New
        ⟨"POST", "/contact/", "application/json", sampleBody⟩).1
      = { status := 200
          headers := [("Content-Type", "application/json")]
          body := .json (.object [("email", .str "a@x.com")]) } :=
  have h := contactHandler_create sampleLib sampleNow New
    ⟨"POST", "/contact/", "application/json", sampleBody⟩
    ⟨"A", "a@x.com", "addr", "123", ⟨2020, 1, 1, 0, 0⟩⟩ rfl rfl (by decide) (by decide)
  ⟨h.1, h.2.2⟩

/-! ## Lemmas on the library behind `createContactHandler` -/

theorem ParseMediaType_empty (t : Tables) :
    ParseMediaType t "" = .error "mime: no media type" := rfl

theorem decodeObject_saved (t : Tables) (d : Bool) (ms : List Member)
    (rs : createContactHandler.Request) (e : String) :
    (∃ err, decodeObject t d ms rs (some e) = .error err) ∨
    (∃ rs2, decodeObject t d ms rs (some e) = .ok (rs2, some e)) := by
  induction ms generalizing rs with
  | nil => exact Or.inr ⟨rs, rfl⟩
  | cons m ms ih =>
    unfold decodeObject
    cases hf : lookupField t m.key with
    | none => cases d <;> simp only [saveError, Bool.false_eq_true, if_false, if_true] <;> exact ih rs
    | some f =>
      cases f with
      | CreatedAt =>
        cases hv : m.value with
        | null => simpa using ih rs
        | string s0 =>
          cases ht : t.UnmarshalTime m.raw with
          | error err => exact Or.inl ⟨err, by simp [ht]⟩
          | ok tm => simpa [ht] using ih _
        | other k =>
          cases ht : t.UnmarshalTime m.raw with
          | error err => exact Or.inl ⟨err, by simp [ht]⟩
          | ok tm => simpa [ht] using ih _
      | _ =>
        cases hv : m.value <;> simp only [decodeString, hv, saveError] <;> exact ih _

theorem decodeObject_unknown (t : Tables) (ms : List Member)
    (rs : createContactHandler.Request) (saved : Option String)
    (h : ∃ m ∈ ms, lookupField t m.key = none) :
    (∃ err, decodeObject t true ms rs saved = .error err) ∨
    (∃ rs2 err, decodeObject t true ms rs saved = .ok (rs2, some err)) := by
  induction ms generalizing rs saved with
  | nil => obtain ⟨m, hm, _⟩ := h; exact absurd hm (List.not_mem_nil _)
  | cons m ms ih =>
    have hsome : ∀ (rs : createContactHandler.Request) (e : String),
        (∃ err, decodeObject t true ms rs (some e) = .error err) ∨
        (∃ rs2 err, decodeObject t true ms rs (some e) = .ok (rs2, some err)) := by
      intro rs e
      rcases decodeObject_saved t true ms rs e with h1 | ⟨rs2, h2⟩
      · exact Or.inl h1
      · exact Or.inr ⟨rs2, e, h2⟩
    unfold decodeObject
    cases hf : lookupField t m.key with
    | none =>
      simp only [if_true]
      cases saved with
      | none => exact hsome rs _
      | some e => exact hsome rs e
    | some f =>
      have htail : ∃ m2 ∈ ms, lookupField t m2.key = none := by
        obtain ⟨m2, hm2, hk⟩ := h
        rcases List.mem_cons.mp hm2 with heq | hmem
        · rw [heq, hf] at hk; cases hk
        · exact ⟨m2, hmem, hk⟩
      cases f with
      | CreatedAt =>
        cases hv : m.value with
        | null => simpa using ih rs saved htail
        | string s0 =>
          cases ht : t.UnmarshalTime m.raw with
          | error err => exact Or.inl ⟨err, by simp [ht]⟩
          | ok tm => simpa [ht] using ih _ saved htail
        | other k =>
          cases ht : t.UnmarshalTime m.raw with
          | error err => exact Or.inl ⟨err, by simp [ht]⟩
          | ok tm => simpa [ht] using ih _ saved htail
      | _ =>
        cases hv : m.value <;> simp only [decodeString, hv] <;> exact ih _ _ htail

/-- A body whose object has a member that matches no field is refused by
the decoder on which `DisallowUnknownFields` was called. -/
theorem Decode_unknown (t : Tables) (body : String) (members : List Member)
    (hread : t.readValue body = .ok (.object members))
    (h : ∃ m ∈ members, lookupField t m.key = none) :
    ∃ err, (goLibrary t).Decode body = .error err := by
  have hobj := decodeObject_unknown t members ⟨"", "", "", "", Time.zero⟩ none h
  simp only [goLibrary, NewDecoder, Decoder.DisallowUnknownFields, Decoder.Decode, hread]
  rcases hobj with ⟨err, herr⟩ | ⟨rs2, err, hok⟩
  · exact ⟨err, by rw [herr]⟩
  · exact ⟨err, by rw [hok]⟩

theorem foldName_ascii (t : Tables) (s : String) (h : ∀ c ∈ s.data, c.toNat < 128) :
    foldName t s = s.data.map Char.toUpper := by
  unfold foldName
  apply List.map_congr_left
  intro c hc
  simp [h c hc]

theorem Field.tag_ascii (f : Field) : ∀ c ∈ f.tag.data, c.toNat < 128 := by
  cases f <;> decide

theorem lookupField_eq_none_iff (t : Tables) (key : String) :
    lookupField t key = none ↔ ∀ f : Field, foldName t f.tag ≠ foldName t key := by
  constructor
  · intro h f hfold
    unfold lookupField at h
    split at h
    · cases h
    · rw [List.find?_eq_none] at h
      exact h f (by cases f <;> simp) (by simpa using hfold)
  · intro h
    have hexact : ∀ f : Field, f.tag ≠ key := fun f heq => h f (by rw [heq])
    unfold lookupField
    have h1 : [Field.Name, .Email, .Address, .Mobile, .CreatedAt].find?
        (fun f => decide (f.tag = key)) = none := by
      rw [List.find?_eq_none]
      intro f _
      simpa using hexact f
    rw [h1]
    simp only
    rw [List.find?_eq_none]
    intro f _
    simpa using h f

/-- C14 as stated fails: `POST /contact/` with content type
`application/json` and a body whose one member is named `NAME`, which is
none of `name`, `email`, `address`, `mobile`, `createdAt`, is decoded (the
key matches the field `name` once letter case is ignored), answered 200,
and a record is stored. -/
theorem contactHandler_create_upper_case :
    ParseMediaType sampleTables "application/json" = .ok "application/json" ∧
    sampleTables.readValue upperCaseBody = .ok (.object [⟨"NAME", .string "A", "\"A\""⟩]) ∧
    "NAME" ∉ ["name", "email", "address", "mobile", "createdAt"] ∧
    lookupField sampleTables "NAME" = some .Name ∧
    (contactHandler (goLibrary sampleTables) sampleNow New
        ⟨"POST", "/contact/", "application/json", upperCaseBody⟩).1
      = { status := 200
          headers := [("Content-Type", "application/json")]
          body := .json (.object [("email", .str "")]) } ∧
    (contactHandler (goLibrary sampleTables) sampleNow New
        ⟨"POST", "/contact/", "application/json", upperCaseBody⟩).2.contacts.lookup ""
      = some ⟨"A", "", "", "", sampleNow⟩ := by
  decide

/-- C14, amended: on `POST /contact/`, a content type the library does not
parse is answered 400 with the library's error, and a missing header is
such a content type; one that parses to another media type than
`application/json` is answered 415; `application/json` with a body the
decoder refuses is answered 400 with the decoder's error, and a body whose
object has a member matching none of the five field names is such a body,
where names are matched as `encoding/json` matches them, letter case
ignored; in all these cases the store is left as it was. -/
theorem contactHandler_create_rejects (lib : Library) (t : Tables) (now : Time)
    (store : AddressBook) (req : Request)
    (hpath : req.Path = "/contact/") (hmethod : req.Method = "POST") :
    (∀ err, lib.ParseMediaType req.ContentType = .error err →
      contactHandler lib now store req = (httpError err 400, store)) ∧
    (∀ mediatype, lib.ParseMediaType req.ContentType = .ok mediatype →
      mediatype ≠ "application/json" →
      contactHandler lib now store req
        = (httpError "expect application/json Content-Type" 415, store)) ∧
    (∀ err, lib.ParseMediaType req.ContentType = .ok "application/json" →
      lib.Decode req.Body = .error err →
      contactHandler lib now store req = (httpError err 400, store)) ∧
    (req.ContentType = "" →
      contactHandler (goLibrary t) now store req
        = (httpError "mime: no media type" 400, store)) ∧
    (∀ members, ParseMediaType t req.ContentType = .ok "application/json" →
      t.readValue req.Body = .ok (.object members) →
      (∃ m ∈ members, lookupField t m.key = none) →
      ∃ err, contactHandler (goLibrary t) now store req = (httpError err 400, store)) ∧
    (∀ key : String, (∀ c ∈ key.data, c.toNat < 128) →
      (lookupField t key = none ↔
        ∀ f : Field, f.tag.data.map Char.toUpper ≠ key.data.map Char.toUpper)) := by
  have herr : ∀ (lib : Library) err, lib.ParseMediaType req.ContentType = .error err →
      contactHandler lib now store req = (httpError err 400, store) := by
    intro lib err herr
    unfold contactHandler createContactHandler
    simp only [hpath, hmethod, herr, if_true]
  have hdec : ∀ (lib : Library) err,
      lib.ParseMediaType req.ContentType = .ok "application/json" →
      lib.Decode req.Body = .error err →
      contactHandler lib now store req = (httpError err 400, store) := by
    intro lib err hok herr
    unfold contactHandler createContactHandler
    simp only [hpath, hmethod, hok, herr, if_true, ne_eq, not_true_eq_false, if_false]
  refine ⟨herr lib, ?_, hdec lib, ?_, ?_, ?_⟩
  · intro mediatype hok hne
    unfold contactHandler createContactHandler
    simp only [hpath, hmethod, hok, if_true, ne_eq, hne, not_false_eq_true]
  · intro hct
    apply herr (goLibrary t)
    show ParseMediaType t req.ContentType = _
    rw [hct]
    exact ParseMediaType_empty t
  · intro members hok hread hunknown
    obtain ⟨err, herr2⟩ := Decode_unknown t req.Body members hread hunknown
    exact ⟨err, hdec (goLibrary t) err hok herr2⟩
  · intro key hkey
    rw [lookupField_eq_none_iff]
    constructor
    · intro h f
      have := h f
      rwa [foldName_ascii t f.tag f.tag_ascii, foldName_ascii t key hkey] at this
    · intro h f
      rw [foldName_ascii t f.tag f.tag_ascii, foldName_ascii t key hkey]
      exact h f

/-- C14, at the routing scenarios: no `Content-Type` header (400),
`text/plain` (415), a body with the member `nickname` (400); the store is
the sample book before and after. -/
theorem contactHandler_create_rejects_witness :
    contactHandler (goLibrary sampleTables) sampleNow sampleBook
        ⟨"POST", "/contact/", "", sampleBody⟩
      = (httpError "mime: no media type" 400, sampleBook) ∧
    contactHandler (goLibrary sampleTables) sampleNow sampleBook
        ⟨"POST", "/contact/", "text/plain", sampleBody⟩
      = (httpError "expect application/json Content-Type" 415, sampleBook) ∧
    (∃ err, contactHandler (goLibrary sampleTables) sampleNow sampleBook
        ⟨"POST", "/contact/", "application/json", unknownFieldBody⟩
      = (httpError err 400, sampleBook)) ∧
    lookupField sampleTables "nickname" = none :=
  ⟨(contactHandler_create_rejects (goLibrary sampleTables) sampleTables sampleNow sampleBook
      ⟨"POST", "/contact/", "", sampleBody⟩ rfl rfl).2.2.2.1 rfl,
   (contactHandler_create_rejects (goLibrary sampleTables) sampleTables sampleNow sampleBook
      ⟨"POST", "/contact/", "text/plain", sampleBody⟩ rfl rfl).2.1 "text/plain"
      (by decide) (by decide),
   (contactHandler_create_rejects (goLibrary sampleTables) sampleTables sampleNow sampleBook
      ⟨"POST", "/contact/", "application/json", unknownFieldBody⟩ rfl rfl).2.2.2.2.1
      [⟨"nickname", .string "x", "\"x\""⟩, ⟨"name", .string "A", "\"A\""⟩,
       ⟨"email", .string "a@x.com", "\"a@x.com\""⟩]
      (by decide) (by decide) ⟨⟨"nickname", .string "x", "\"x\""⟩, by simp, by decide⟩,
   ((contactHandler_create_rejects (goLibrary sampleTables) sampleTables sampleNow sampleBook
      ⟨"POST", "/contact/", "application/json", unknownFieldBody⟩ rfl rfl).2.2.2.2.2
      "nickname" (by decide)).mpr (by intro f; cases f <;> decide)⟩

/-- C15: `contactHandler` answers 405 and leaves the store as it was for
every method other than POST, GET and DELETE on `/contact/`, and for every
method other than GET and DELETE on `/contact/<key>` where the key is one
non-empty URL segment (more generally on every other path with at least two
parts); `createdAtHandler` does so for every method other than GET, whatever
the path. -/
theorem method_not_allowed (lib : Library) (now : Time) (store : AddressBook)
    (req : Request) :
    (req.Path = "/contact/" → req.Method ≠ "POST" → req.Method ≠ "GET" →
      req.Method ≠ "DELETE" →
      (contactHandler lib now store req).1.status = 405 ∧
      (contactHandler lib now store req).2 = store) ∧
    (∀ key : String, key ≠ "" → '/' ∉ key.data → req.Path = "/contact/" ++ key →
      req.Method ≠ "GET" → req.Method ≠ "DELETE" →
      (contactHandler lib now store req).1.status = 405 ∧
      (contactHandler lib now store req).2 = store) ∧
    (req.Path ≠ "/contact/" → 2 ≤ (pathPartsOf req.Path).length →
      req.Method ≠ "GET" → req.Method ≠ "DELETE" →
      (contactHandler lib now store req).1.status = 405 ∧
      (contactHandler lib now store req).2 = store) ∧
    (req.Method ≠ "GET" →
      (createdAtHandler store req).1.status = 405 ∧
      (createdAtHandler store req).2 = store) := by
  have hitem : req.Path ≠ "/contact/" → 2 ≤ (pathPartsOf req.Path).length →
      req.Method ≠ "GET" → req.Method ≠ "DELETE" →
      (contactHandler lib now store req).1.status = 405 ∧
      (contactHandler lib now store req).2 = store := by
    intro hpath hshape hget hdel
    rw [contactHandler_item lib now store req hpath hshape]
    simp [hget, hdel, httpError]
  refine ⟨?_, ?_, hitem, ?_⟩
  · intro hpath hpost hget hdel
    unfold contactHandler
    simp [hpath, hpost, hget, hdel, httpError]
  · intro key hne hseg hpath hget hdel
    have hparts := pathPartsOf_contact_key key hne hseg
    have hp : req.Path ≠ "/contact/" := by
      intro heq
      have hdata := congrArg String.data (hpath.symm.trans heq)
      rw [String.data_append] at hdata
      have hk : key.data = [] := List.append_right_eq_self.mp hdata
      exact hne (by cases key; simp_all)
    exact hitem hp (by rw [hpath, hparts]; simp) hget hdel
  · intro hget
    unfold createdAtHandler
    simp [hget, httpError]

/-- C15, at `PUT /contact/`, `PUT /contact/a@x.com` and
`POST /createdAt/2020/3/5`: 405 each time. -/
theorem method_not_allowed_witness :
    (contactHandler sampleLib sampleNow sampleBook ⟨"PUT", "/contact/", "", ""⟩).1.status
      = 405 ∧
    (contactHandler sampleLib sampleNow sampleBook ⟨"PUT", "/contact/a@x.com", "", ""⟩).1.status
      = 405 ∧
    (createdAtHandler sampleBook ⟨"POST", "/createdAt/2020/3/5", "", ""⟩).1.status = 405 :=
  ⟨((method_not_allowed sampleLib sampleNow sampleBook ⟨"PUT", "/contact/", "", ""⟩).1
      rfl (by decide) (by decide) (by decide)).1,
   ((method_not_allowed sampleLib sampleNow sampleBook
      ⟨"PUT", "/contact/a@x.com", "", ""⟩).2.1 "a@x.com"
      (by decide) (by decide) (by decide) (by decide) (by decide)).1,
   ((method_not_allowed sampleLib sampleNow sampleBook
      ⟨"POST", "/createdAt/2020/3/5", "", ""⟩).2.2.2 (by decide)).1⟩

/-! ## Invariant and frame -/

theorem run_key_email (ab : AddressBook) (op : Op)
    (h : ∀ k c, ab.contacts.lookup k = some c → c.Email = k) :
    ∀ k c, (op.run ab).contacts.lookup k = some c → c.Email = k := by
  intro k c hk
  cases op with
  | create n e a m t =>
    by_cases hke : k = e
    · subst hke
      simp [Op.run, CreateContact, AList.lookup_insert] at hk
      rw [← hk]
    · rw [Op.run, CreateContact] at hk
      simp only [AList.lookup_insert_ne hke] at hk
      exact h k c hk
  | get e =>
    cases hl : ab.contacts.lookup e <;> simp [Op.run, GetContact, hl] at hk <;> exact h k c hk
  | delete e =>
    cases hl : ab.contacts.lookup e with
    | none =>
      simp [Op.run, DeleteContact, hl] at hk
      exact h k c hk
    | some c2 =>
      simp only [Op.run, DeleteContact, hl] at hk
      by_cases hke : k = e
      · subst hke
        simp [AList.lookup_erase] at hk
      · rw [AList.lookup_erase_ne hke] at hk
        exact h k c hk
  | deleteAll => simp [Op.run, DeleteAllContacts] at hk
  | getAll => exact h k c (by simpa [Op.run, GetAllContacts] using hk)
  | byDate y m d => exact h k c (by simpa [Op.run, GetContactByCreatedDate] using hk)

theorem runOps_key_email_of (ops : List Op) (ab : AddressBook)
    (h : ∀ k c, ab.contacts.lookup k = some c → c.Email = k) :
    ∀ k c, (runOps ab ops).contacts.lookup k = some c → c.Email = k := by
  induction ops generalizing ab with
  | nil => simpa [runOps] using h
  | cons op ops ih => simpa [runOps] using ih (op.run ab) (run_key_email ab op h)

/-- C17: in the book reached from `New` by any finite sequence of calls of
the six store methods, the record stored at a key has that key as its
`Email`. -/
theorem runOps_key_email (ops : List Op) (k : String) (c : Contacts)
    (h : (runOps New ops).contacts.lookup k = some c) : c.Email = k :=
  runOps_key_email_of ops New (by intro k c hk; simp [New] at hk) k c h

/-- C17, after a create, a delete of another key, a second create with the
same email and a listing. -/
theorem runOps_key_email_witness :
    (runOps New
        [.create "A" "a@x.com" "addr" "123" ⟨2020, 3, 5, 7, 0⟩, .delete "b@x.com",
         .create "A2" "a@x.com" "addr2" "456" ⟨2021, 1, 1, 0, 0⟩, .getAll]).contacts.lookup
      "a@x.com"
      = some ⟨"A2", "a@x.com", "addr2", "456", ⟨2021, 1, 1, 0, 0⟩⟩ ∧
    (⟨"A2", "a@x.com", "addr2", "456", ⟨2021, 1, 1, 0, 0⟩⟩ : Contacts).Email = "a@x.com" :=
  ⟨by decide,
   runOps_key_email
     [.create "A" "a@x.com" "addr" "123" ⟨2020, 3, 5, 7, 0⟩, .delete "b@x.com",
      .create "A2" "a@x.com" "addr2" "456" ⟨2021, 1, 1, 0, 0⟩, .getAll]
     "a@x.com" ⟨"A2", "a@x.com", "addr2", "456", ⟨2021, 1, 1, 0, 0⟩⟩ (by decide)⟩

/-- C18: `GetContact`, `GetAllContacts` and `GetContactByCreatedDate` leave
the book exactly as it was, and `CreateContact` with email `e` leaves every
key other than `e` mapped to what it was mapped to, present or absent. -/
theorem store_frame (ab : AddressBook) (e name address mobile : String) (createdAt : Time)
    (year month day : Int) :
    (GetContact ab e).2 = ab ∧
    (GetAllContacts ab).2 = ab ∧
    (GetContactByCreatedDate ab year month day).2 = ab ∧
    (∀ k, k ≠ e →
      (CreateContact ab name e address mobile createdAt).2.contacts.lookup k
        = ab.contacts.lookup k) ∧
    (∀ k, k ≠ e →
      (k ∈ (CreateContact ab name e address mobile createdAt).2.contacts ↔ k ∈ ab.contacts)) := by
  refine ⟨?_, rfl, rfl, ?_, ?_⟩
  · cases h : ab.contacts.lookup e <;> simp [GetContact, h]
  · intro k hk
    simp [CreateContact, AList.lookup_insert_ne hk]
  · intro k hk
    simp [CreateContact, AList.mem_insert, hk]

/-- C18, on the three-contact sample book: creating `d@x.com` leaves the
record at `a@x.com` and the absence of `z@x.com` untouched. -/
theorem store_frame_witness :
    (CreateContact sampleBook3 "D" "d@x.com" "addr" "000" sampleNow).2.contacts.lookup "a@x.com"
      = sampleBook3.contacts.lookup "a@x.com" ∧
    ("z@x.com" ∈ (CreateContact sampleBook3 "D" "d@x.com" "addr" "000" sampleNow).2.contacts
      ↔ "z@x.com" ∈ sampleBook3.contacts) :=
  ⟨(store_frame sampleBook3 "d@x.com" "D" "addr" "000" sampleNow 2020 3 5).2.2.2.1
      "a@x.com" (by decide),
   (store_frame sampleBook3 "d@x.com" "D" "addr" "000" sampleNow 2020 3 5).2.2.2.2
      "z@x.com" (by decide)⟩

/-! ## The key of an item route -/

end BasicRest
